import Mathlib

/-!
Verification of the `docker_dexhand` utility scripts against their
natural-language specification.

The development shallowly embeds the three Python source files:

* `src/scene_generation/scripts/Sence.py` — in particular the rejection
  sampler `Sence.find_safe_positions` and its inner predicate `is_valid`;
* `src/scene_generation/scripts/add_inertial.py` — the inertia estimator
  `calculate_inertial_properties` and the URDF patcher `add_inertial_to_urdf`;
* `src/scene_generation/scripts/add_path.py` — the mesh-path rewriter
  `update_urdf_mesh_paths_recursive`.

Python floats are modelled as exact rationals (every IEEE float is a
rational), and `math.dist` — the Euclidean distance, a real number — is
modelled exactly via `Real.sqrt` on the rational sum of squares.
Comparisons of the form `a <= math.dist(p, q)` are decided by the
computable rational tests `leSqrt` / `sqrtLe`, which are proved equivalent
to the corresponding real inequalities (`leSqrt_spec`, `sqrtLe_spec`).
Randomness (`random.uniform` followed by `round(·, 4)`) is modelled by an
arbitrary stream `draws : ℕ → Vec3` of post-rounding candidates, so every
theorem quantifies over all possible random outcomes.
-/

namespace DexHand

/-- A 3-D point, as the 3-element Python list `[x, y, z]` of floats. -/
abbrev Vec3 : Type := ℚ × ℚ × ℚ

/-- The workspace `[[x_min, x_max], [y_min, y_max], [z_min, z_max]]` of
`find_safe_positions`. -/
abbrev Workspace : Type := (ℚ × ℚ) × (ℚ × ℚ) × (ℚ × ℚ)

/-- Squared Euclidean distance between two points; `math.dist p q` is
`Real.sqrt (dist2 p q)`. -/
def dist2 (p q : Vec3) : ℚ :=
  (p.1 - q.1) ^ 2 + (p.2.1 - q.2.1) ^ 2 + (p.2.2 - q.2.2) ^ 2

/-- The Euclidean distance `math.dist p q` as a real number.  Used only in
theorem statements; the executable embedding compares distances through
`leSqrt` and `sqrtLe`. -/
noncomputable def edist (p q : Vec3) : ℝ :=
  Real.sqrt ((dist2 p q : ℚ) : ℝ)

/-- Computable test for `(a : ℝ) ≤ Real.sqrt s` (`s ≥ 0`): a nonpositive
`a` is below any square root, otherwise compare the squares. -/
def leSqrt (a s : ℚ) : Bool :=
  a ≤ 0 || a ^ 2 ≤ s

/-- Computable test for `Real.sqrt s ≤ (b : ℝ)`: the root is nonnegative,
so `b` must be, and then the squares compare. -/
def sqrtLe (s b : ℚ) : Bool :=
  0 ≤ b && s ≤ b ^ 2

/-- The workspace-bounds test of `is_valid` (`Sence.py` lines 125–128):
`workspace[0][0] <= candidate[0] <= workspace[0][1]` and likewise on the
other two axes. -/
def inWorkspace (ws : Workspace) (c : Vec3) : Bool :=
  decide (ws.1.1 ≤ c.1 ∧ c.1 ≤ ws.1.2) &&
  decide (ws.2.1.1 ≤ c.2.1 ∧ c.2.1 ≤ ws.2.1.2) &&
  decide (ws.2.2.1 ≤ c.2.2 ∧ c.2.2 ≤ ws.2.2.2)

/-- The squared nearest-neighbour distance
`m_d = min(math.dist(candidate, object) for object in objects)`
(`Sence.py` line 130) for `objects = o :: os`; since `Real.sqrt` is
monotone, the minimum of the distances is the square root of the minimum
of the squared distances. -/
def minDist2 (c : Vec3) (o : Vec3) (os : List Vec3) : ℚ :=
  (os.map (dist2 c)).foldl min (dist2 c o)

/-- Model of `is_valid` from `Sence.find_safe_positions` (`Sence.py` lines 123–136).
Out-of-workspace candidates are rejected before any distance is computed;
with an empty `objects` list, `min()` of an empty generator raises a
`ValueError`, modelled by `.error`.  Otherwise the Python `for` loop
returns `False` as soon as one object fails
`min_dist <= distance and m_d <= max_dist`, i.e. it computes the `all` of
that test over `objects`. -/
def is_valid (ws : Workspace) (min_dist max_dist : ℚ) (objects : List Vec3)
    (candidate : Vec3) : Except String Bool :=
  if !inWorkspace ws candidate then .ok false
  else
    match objects with
    | [] => .error "min() arg is an empty sequence"
    | o :: os =>
      let m_d2 := minDist2 candidate o os
      .ok ((o :: os).all fun obj =>
        leSqrt min_dist (dist2 candidate obj) && sqrtLe m_d2 max_dist)

/-- The Python `len(found)`: `found` is either the empty list `[]` or a
single candidate, a flat list of three coordinates. -/
def lenFound : Option Vec3 → ℕ
  | none => 0
  | some _ => 3

/-- The `for _ in range(max_attempts)` loop of `find_safe_positions`
(`Sence.py` lines 139–151), with the remaining attempts as fuel and `i`
the index into the stream of random draws.  The loop breaks as soon as
`len(found) >= num_positions`; an accepted candidate replaces `found`
wholesale (`found = candidate`). -/
def sampleLoop (ws : Workspace) (min_dist max_dist : ℚ) (objects : List Vec3)
    (num_positions : ℕ) (draws : ℕ → Vec3) :
    ℕ → ℕ → Option Vec3 → Except String (Option Vec3)
  | 0, _, found => .ok found
  | fuel + 1, i, found =>
    if num_positions ≤ lenFound found then .ok found
    else
      match is_valid ws min_dist max_dist objects (draws i) with
      | .error e => .error e
      | .ok true => sampleLoop ws min_dist max_dist objects num_positions draws
          fuel (i + 1) (some (draws i))
      | .ok false => sampleLoop ws min_dist max_dist objects num_positions draws
          fuel (i + 1) found

/-- Model of `Sence.find_safe_positions` (`Sence.py` lines 120–152).  The result is
`.ok none` for the empty list `[]`, `.ok (some p)` for a returned
candidate, and `.error` when the inner `min()` raises on an empty
`objects` list. -/
def find_safe_positions (objects : List Vec3) (ws : Workspace)
    (min_dist max_dist : ℚ) (num_positions max_attempts : ℕ)
    (draws : ℕ → Vec3) : Except String (Option Vec3) :=
  sampleLoop ws min_dist max_dist objects num_positions draws max_attempts 0 none

/-! ### Bridge lemmas between the computable tests and real distances -/

theorem dist2_nonneg (p q : Vec3) : 0 ≤ dist2 p q := by
  unfold dist2; positivity

theorem leSqrt_spec (a s : ℚ) (hs : 0 ≤ s) :
    leSqrt a s = true ↔ (a : ℝ) ≤ Real.sqrt ((s : ℚ) : ℝ) := by
  unfold leSqrt
  simp only [Bool.or_eq_true, decide_eq_true_eq]
  constructor
  · rintro (ha | ha)
    · exact le_trans (by exact_mod_cast ha) (Real.sqrt_nonneg _)
    · exact Real.le_sqrt_of_sq_le (by exact_mod_cast ha)
  · intro h
    rcases le_or_lt a 0 with ha | ha
    · exact Or.inl ha
    · refine Or.inr ?_
      have hx : (0 : ℝ) ≤ (a : ℚ) := by exact_mod_cast ha.le
      have hy : (0 : ℝ) ≤ ((s : ℚ) : ℝ) := by exact_mod_cast hs
      have := (Real.le_sqrt hx hy).mp h
      exact_mod_cast this

theorem sqrtLe_spec (s b : ℚ) :
    sqrtLe s b = true ↔ Real.sqrt ((s : ℚ) : ℝ) ≤ (b : ℝ) := by
  unfold sqrtLe
  simp only [Bool.and_eq_true, decide_eq_true_eq]
  rw [Real.sqrt_le_iff]
  constructor
  · rintro ⟨h1, h2⟩
    exact ⟨by exact_mod_cast h1, by exact_mod_cast h2⟩
  · rintro ⟨h1, h2⟩
    exact ⟨by exact_mod_cast h1, by exact_mod_cast h2⟩

theorem foldl_min_le_init (l : List ℚ) : ∀ a : ℚ, l.foldl min a ≤ a := by
  induction l with
  | nil => intro a; simp
  | cons x xs ih =>
    intro a
    calc (x :: xs).foldl min a = xs.foldl min (min a x) := by simp
    _ ≤ min a x := ih (min a x)
    _ ≤ a := min_le_left _ _

theorem foldl_min_le_mem (l : List ℚ) :
    ∀ a : ℚ, ∀ x ∈ l, l.foldl min a ≤ x := by
  induction l with
  | nil => intro a x hx; cases hx
  | cons y ys ih =>
    intro a x hx
    rcases List.mem_cons.mp hx with rfl | hx
    · calc (x :: ys).foldl min a = ys.foldl min (min a x) := by simp
      _ ≤ min a x := foldl_min_le_init ys (min a x)
      _ ≤ x := min_le_right _ _
    · simpa using ih (min a y) x hx

theorem foldl_min_mem (l : List ℚ) :
    ∀ a : ℚ, l.foldl min a = a ∨ l.foldl min a ∈ l := by
  induction l with
  | nil => intro a; simp
  | cons y ys ih =>
    intro a
    rcases ih (min a y) with h | h
    · rcases min_cases a y with ⟨hm, _⟩ | ⟨hm, _⟩
      · left; rw [List.foldl_cons, h, hm]
      · right; rw [List.foldl_cons, h, hm]; exact List.mem_cons_self _ _
    · right
      rw [List.foldl_cons]
      exact List.mem_cons_of_mem _ h

/-- An accepted candidate passed the workspace-bounds test. -/
theorem is_valid_inWorkspace (ws : Workspace) (md xd : ℚ)
    (objects : List Vec3) (c : Vec3)
    (h : is_valid ws md xd objects c = .ok true) :
    inWorkspace ws c = true := by
  unfold is_valid at h
  cases hw : inWorkspace ws c with
  | false => rw [hw] at h; simp at h
  | true => rfl

/-- Characterisation of `is_valid ... = .ok true` on a non-empty object
list, given that the candidate is inside the workspace: every object is at
distance at least `min_dist`, and the squared nearest-neighbour distance
is within `max_dist`. -/
theorem is_valid_ok_true (ws : Workspace) (md xd : ℚ) (o : Vec3)
    (os : List Vec3) (c : Vec3) (hw : inWorkspace ws c = true) :
    is_valid ws md xd (o :: os) c = .ok true ↔
      (∀ q ∈ o :: os, leSqrt md (dist2 c q) = true) ∧
      sqrtLe (minDist2 c o os) xd = true := by
  unfold is_valid
  rw [hw]
  simp only [Bool.not_true, Bool.false_eq_true, if_false, Except.ok.injEq]
  rw [List.all_eq_true]
  constructor
  · intro h
    have ho := h o (List.mem_cons_self _ _)
    rw [Bool.and_eq_true] at ho
    refine ⟨?_, ho.2⟩
    intro q hq
    have := h q hq
    rw [Bool.and_eq_true] at this
    exact this.1
  · rintro ⟨hall, hmin⟩ q hq
    rw [Bool.and_eq_true]
    exact ⟨hall q hq, hmin⟩

/-- Loop invariant: if `found` is valid whenever non-empty, then a
returned candidate is valid. -/
theorem sampleLoop_some_valid (ws : Workspace) (md xd : ℚ)
    (objects : List Vec3) (np : ℕ) (draws : ℕ → Vec3) :
    ∀ (fuel i : ℕ) (found : Option Vec3),
      (∀ p, found = some p → is_valid ws md xd objects p = .ok true) →
      ∀ p, sampleLoop ws md xd objects np draws fuel i found = .ok (some p) →
      is_valid ws md xd objects p = .ok true := by
  intro fuel
  induction fuel with
  | zero =>
    intro i found h p hp
    simp only [sampleLoop, Except.ok.injEq] at hp
    exact h p hp
  | succ n ih =>
    intro i found h p hp
    unfold sampleLoop at hp
    split at hp
    · exact h p (by injection hp)
    · cases hv : is_valid ws md xd objects (draws i) with
      | error e => rw [hv] at hp; cases hp
      | ok b =>
        rw [hv] at hp
        cases b with
        | true =>
          exact ih (i + 1) (some (draws i))
            (fun q hq => by injection hq with hq; rw [← hq]; exact hv) p hp
        | false => exact ih (i + 1) found h p hp

/-- C1: whenever `find_safe_positions` is called with a non-empty
`existing` list and returns a point, that point lies inside the workspace
box on all three axes, its Euclidean distance to every existing point is
at least `min_dist`, and its Euclidean distance to some existing point
(in particular the nearest one) is at most `max_dist`. -/
theorem find_safe_positions_accepted_sound (objects : List Vec3)
    (ws : Workspace) (md xd : ℚ) (np ma : ℕ) (draws : ℕ → Vec3) (p : Vec3)
    (hne : objects ≠ [])
    (hres : find_safe_positions objects ws md xd np ma draws = .ok (some p)) :
    (ws.1.1 ≤ p.1 ∧ p.1 ≤ ws.1.2) ∧
    (ws.2.1.1 ≤ p.2.1 ∧ p.2.1 ≤ ws.2.1.2) ∧
    (ws.2.2.1 ≤ p.2.2 ∧ p.2.2 ≤ ws.2.2.2) ∧
    (∀ q ∈ objects, (md : ℝ) ≤ edist p q) ∧
    (∃ q ∈ objects, edist p q ≤ (xd : ℝ)) := by
  obtain ⟨o, os, rfl⟩ := List.exists_cons_of_ne_nil hne
  have hvalid := sampleLoop_some_valid ws md xd (o :: os) np draws ma 0 none
    (fun q hq => by cases hq) p hres
  have hw := is_valid_inWorkspace ws md xd (o :: os) p hvalid
  rw [is_valid_ok_true ws md xd o os p hw] at hvalid
  obtain ⟨hall, hmin⟩ := hvalid
  unfold inWorkspace at hw
  simp only [Bool.and_eq_true, decide_eq_true_eq] at hw
  obtain ⟨⟨hwx, hwy⟩, hwz⟩ := hw
  refine ⟨hwx, hwy, hwz, ?_, ?_⟩
  · intro q hq
    have := hall q hq
    rw [leSqrt_spec _ _ (dist2_nonneg _ _)] at this
    exact this
  · rw [sqrtLe_spec] at hmin
    rcases foldl_min_mem ((os.map (dist2 p))) (dist2 p o) with h | h
    · exact ⟨o, List.mem_cons_self _ _, by rw [edist, ← h]; exact hmin⟩
    · obtain ⟨q, hq, hdq⟩ := List.mem_map.mp h
      exact ⟨q, List.mem_cons_of_mem _ hq, by rw [edist, hdq]; exact hmin⟩

/-- Witness for C1 at a concrete run: one existing point at the origin,
unit-box workspace, `min_dist = 0.1`, `max_dist = 0.5`, and a draw stream
that always proposes `(0.25, 0, 0)`. -/
theorem find_safe_positions_accepted_sound_witness :
    ([((0 : ℚ), (0 : ℚ), (0 : ℚ))] ≠ ([] : List Vec3)) ∧
    find_safe_positions [((0 : ℚ), (0 : ℚ), (0 : ℚ))]
      ((0, 1), (0, 1), (0, 1)) (1/10) (1/2) 1 3
      (fun _ => ((1/4 : ℚ), (0 : ℚ), (0 : ℚ))) =
      .ok (some ((1/4 : ℚ), (0 : ℚ), (0 : ℚ))) ∧
    ((((0 : ℚ), (1 : ℚ)), ((0 : ℚ), (1 : ℚ)), ((0 : ℚ), (1 : ℚ))) :
        Workspace).1.1 ≤ ((1/4 : ℚ), (0 : ℚ), (0 : ℚ)).1 ∧
    (∀ q ∈ [((0 : ℚ), (0 : ℚ), (0 : ℚ))],
      ((1/10 : ℚ) : ℝ) ≤ edist ((1/4 : ℚ), (0 : ℚ), (0 : ℚ)) q) := by
  have hrun : find_safe_positions [((0 : ℚ), (0 : ℚ), (0 : ℚ))]
      ((0, 1), (0, 1), (0, 1)) (1/10) (1/2) 1 3
      (fun _ => ((1/4 : ℚ), (0 : ℚ), (0 : ℚ))) =
      .ok (some ((1/4 : ℚ), (0 : ℚ), (0 : ℚ))) := by
    norm_num [find_safe_positions, sampleLoop, is_valid, inWorkspace,
      minDist2, dist2, leSqrt, sqrtLe, lenFound]
  have h := find_safe_positions_accepted_sound
    [((0 : ℚ), (0 : ℚ), (0 : ℚ))] ((0, 1), (0, 1), (0, 1)) (1/10) (1/2) 1 3
    (fun _ => ((1/4 : ℚ), (0 : ℚ), (0 : ℚ))) ((1/4 : ℚ), (0 : ℚ), (0 : ℚ))
    (by simp) hrun
  exact ⟨by simp, hrun, h.1.1, h.2.2.2.1⟩

/-! ### C9: unsatisfiable distance constraints -/

/-- On a non-empty object list, `is_valid` always returns a boolean
(the `min()` call cannot raise). -/
theorem is_valid_isOk (ws : Workspace) (md xd : ℚ) (o : Vec3)
    (os : List Vec3) (c : Vec3) :
    ∃ b, is_valid ws md xd (o :: os) c = .ok b := by
  unfold is_valid
  split
  · exact ⟨false, rfl⟩
  · exact ⟨_, rfl⟩

/-- With `max_dist < min_dist`, no candidate can be accepted: the
nearest object would have to be at distance both `≥ min_dist` and
`≤ max_dist`. -/
theorem is_valid_never_true_of_unsat (ws : Workspace) (md xd : ℚ)
    (o : Vec3) (os : List Vec3) (c : Vec3) (hlt : xd < md) :
    is_valid ws md xd (o :: os) c ≠ .ok true := by
  intro h
  have hw := is_valid_inWorkspace ws md xd (o :: os) c h
  rw [is_valid_ok_true ws md xd o os c hw] at h
  obtain ⟨hall, hmin⟩ := h
  have hattain : ∃ q ∈ o :: os, dist2 c q = minDist2 c o os := by
    rcases foldl_min_mem (os.map (dist2 c)) (dist2 c o) with h | h
    · exact ⟨o, List.mem_cons_self _ _, h.symm⟩
    · obtain ⟨q, hq, hdq⟩ := List.mem_map.mp h
      exact ⟨q, List.mem_cons_of_mem _ hq, hdq⟩
  obtain ⟨q, hq, hdq⟩ := hattain
  have h1 := hall q hq
  unfold leSqrt at h1
  unfold sqrtLe at hmin
  simp only [Bool.or_eq_true, Bool.and_eq_true, decide_eq_true_eq] at h1 hmin
  obtain ⟨hxd0, hm⟩ := hmin
  rw [hdq] at h1
  rcases h1 with h1 | h1
  · linarith
  · nlinarith

/-- If no candidate is ever valid, the loop keeps `found = []` and
returns it. -/
theorem sampleLoop_none (ws : Workspace) (md xd : ℚ) (objects : List Vec3)
    (np : ℕ) (draws : ℕ → Vec3)
    (h : ∀ c, is_valid ws md xd objects c = .ok false) :
    ∀ fuel i, sampleLoop ws md xd objects np draws fuel i none = .ok none := by
  intro fuel
  induction fuel with
  | zero => intro i; rfl
  | succ n ih =>
    intro i
    unfold sampleLoop
    split
    · rfl
    · rw [h (draws i)]
      exact ih (i + 1)

/-- C9: with a non-empty `existing` list and `max_dist < min_dist`,
`find_safe_positions` returns the empty result `[]`, for every workspace,
attempt budget and stream of random draws. -/
theorem find_safe_positions_unsat_empty (objects : List Vec3)
    (ws : Workspace) (md xd : ℚ) (np ma : ℕ) (draws : ℕ → Vec3)
    (hne : objects ≠ []) (hlt : xd < md) :
    find_safe_positions objects ws md xd np ma draws = .ok none := by
  obtain ⟨o, os, rfl⟩ := List.exists_cons_of_ne_nil hne
  apply sampleLoop_none
  intro c
  obtain ⟨b, hb⟩ := is_valid_isOk ws md xd o os c
  cases b with
  | false => exact hb
  | true => exact absurd hb (is_valid_never_true_of_unsat ws md xd o os c hlt)

/-- Witness for C9: one existing point, `min_dist = 0.5 > max_dist = 0.1`,
a draw stream proposing a point that satisfies neither constraint side. -/
theorem find_safe_positions_unsat_empty_witness :
    ([((0 : ℚ), (0 : ℚ), (0 : ℚ))] ≠ ([] : List Vec3)) ∧
    ((1/10 : ℚ) < (1/2 : ℚ)) ∧
    find_safe_positions [((0 : ℚ), (0 : ℚ), (0 : ℚ))]
      ((0, 1), (0, 1), (0, 1)) (1/2) (1/10) 1 2
      (fun _ => ((1/4 : ℚ), (0 : ℚ), (0 : ℚ))) = .ok none :=
  ⟨by simp, by norm_num,
    find_safe_positions_unsat_empty [((0 : ℚ), (0 : ℚ), (0 : ℚ))]
      ((0, 1), (0, 1), (0, 1)) (1/2) (1/10) 1 2
      (fun _ => ((1/4 : ℚ), (0 : ℚ), (0 : ℚ))) (by simp) (by norm_num)⟩

/-! ### C10: empty `existing` list raises -/

/-- With an empty object list, a candidate inside the workspace reaches
`min(math.dist(candidate, object) for object in objects)`, which raises
`ValueError` on the empty generator. -/
theorem is_valid_empty_error (ws : Workspace) (md xd : ℚ) (c : Vec3)
    (hb : inWorkspace ws c = true) :
    is_valid ws md xd [] c = .error "min() arg is an empty sequence" := by
  unfold is_valid
  rw [hb]
  rfl

/-- With an empty object list, an out-of-workspace candidate is rejected
before the distance computation. -/
theorem is_valid_empty_false (ws : Workspace) (md xd : ℚ) (c : Vec3)
    (hb : inWorkspace ws c = false) :
    is_valid ws md xd [] c = .ok false := by
  unfold is_valid
  rw [hb]
  rfl

theorem sampleLoop_empty_error (ws : Workspace) (md xd : ℚ) (np : ℕ)
    (draws : ℕ → Vec3) (hnp : 0 < np) :
    ∀ fuel i, (∃ k, k < fuel ∧ inWorkspace ws (draws (i + k)) = true) →
      sampleLoop ws md xd [] np draws fuel i none =
        .error "min() arg is an empty sequence" := by
  intro fuel
  induction fuel with
  | zero => rintro i ⟨k, hk, -⟩; omega
  | succ n ih =>
    rintro i ⟨k, hk, hb⟩
    unfold sampleLoop
    rw [if_neg (by simp [lenFound]; omega)]
    cases h0 : inWorkspace ws (draws i) with
    | true => rw [is_valid_empty_error ws md xd (draws i) h0]
    | false =>
      rw [is_valid_empty_false ws md xd (draws i) h0]
      have hk0 : k ≠ 0 := by
        rintro rfl
        rw [Nat.add_zero] at hb
        rw [h0] at hb
        cases hb
      refine ih (i + 1) ⟨k - 1, by omega, ?_⟩
      have he : i + 1 + (k - 1) = i + k := by omega
      rw [he]
      exact hb

/-- C10: invoked with an empty `existing` list, a positive
`num_positions`, and a draw stream that proposes at least one
within-bounds candidate inside the attempt budget, `find_safe_positions`
raises the `ValueError` of `min()` on an empty sequence instead of
returning a point or the empty result. -/
theorem find_safe_positions_empty_raises (ws : Workspace) (md xd : ℚ)
    (np ma : ℕ) (draws : ℕ → Vec3) (k : ℕ)
    (hnp : 0 < np) (hk : k < ma) (hb : inWorkspace ws (draws k) = true) :
    find_safe_positions [] ws md xd np ma draws =
      .error "min() arg is an empty sequence" := by
  unfold find_safe_positions
  exact sampleLoop_empty_error ws md xd np draws hnp ma 0 ⟨k, hk, by simpa using hb⟩

/-- Witness for C10: empty `existing`, in-bounds first draw. -/
theorem find_safe_positions_empty_raises_witness :
    (0 < 1) ∧ (0 < 2) ∧
    inWorkspace ((0, 1), (0, 1), (0, 1)) ((1/4 : ℚ), (0 : ℚ), (0 : ℚ)) = true ∧
    find_safe_positions [] ((0, 1), (0, 1), (0, 1)) (1/10) (1/2) 1 2
      (fun _ => ((1/4 : ℚ), (0 : ℚ), (0 : ℚ))) =
      .error "min() arg is an empty sequence" := by
  have hb : inWorkspace ((0, 1), (0, 1), (0, 1))
      ((1/4 : ℚ), (0 : ℚ), (0 : ℚ)) = true := by
    norm_num [inWorkspace]
  exact ⟨by norm_num, by norm_num, hb,
    find_safe_positions_empty_raises ((0, 1), (0, 1), (0, 1)) (1/10) (1/2) 1 2
      (fun _ => ((1/4 : ℚ), (0 : ℚ), (0 : ℚ))) 0 (by norm_num) (by norm_num) hb⟩

/-! ### C3: which valid candidate is returned?

In `find_safe_positions`, an accepted candidate is assigned wholesale
(`found = candidate`), making `found` a flat list of three coordinates,
so `len(found) = 3 >= num_positions = 1` breaks the loop at the start of
the *next* iteration: the function keeps the FIRST valid candidate it
draws and never looks at later ones. -/

/-- A draw stream whose first candidate is `(0.25, 0, 0)` and whose later
candidates are all `(1/3, 0, 0)`; both are valid for one existing point
at the origin with `min_dist = 0.1`, `max_dist = 0.5`. -/
def drawsAlt : ℕ → Vec3 :=
  fun i => if i = 0 then ((1/4 : ℚ), (0 : ℚ), (0 : ℚ))
           else ((1/3 : ℚ), (0 : ℚ), (0 : ℚ))

/-- Counterexample to C3: within a budget of 5 attempts, both distinct
candidates `(1/4,0,0)` (drawn first) and `(1/3,0,0)` (drawn at every
later attempt, in particular the last one inside the budget) satisfy the
validity predicate, yet the sampler returns the FIRST valid candidate
`(1/4,0,0)`, not the last valid one `(1/3,0,0)`. -/
theorem find_safe_positions_returns_first_cex :
    is_valid ((0, 1), (0, 1), (0, 1)) (1/10) (1/2)
      [((0 : ℚ), (0 : ℚ), (0 : ℚ))] ((1/4 : ℚ), (0 : ℚ), (0 : ℚ)) = .ok true ∧
    is_valid ((0, 1), (0, 1), (0, 1)) (1/10) (1/2)
      [((0 : ℚ), (0 : ℚ), (0 : ℚ))] ((1/3 : ℚ), (0 : ℚ), (0 : ℚ)) = .ok true ∧
    drawsAlt 0 = ((1/4 : ℚ), (0 : ℚ), (0 : ℚ)) ∧
    drawsAlt 4 = ((1/3 : ℚ), (0 : ℚ), (0 : ℚ)) ∧
    (((1/4 : ℚ), (0 : ℚ), (0 : ℚ)) : Vec3) ≠ ((1/3 : ℚ), (0 : ℚ), (0 : ℚ)) ∧
    find_safe_positions [((0 : ℚ), (0 : ℚ), (0 : ℚ))]
      ((0, 1), (0, 1), (0, 1)) (1/10) (1/2) 1 5 drawsAlt =
      .ok (some ((1/4 : ℚ), (0 : ℚ), (0 : ℚ))) := by
  refine ⟨?_, ?_, rfl, rfl, ?_, ?_⟩
  · norm_num [is_valid, inWorkspace, minDist2, dist2, leSqrt, sqrtLe]
  · norm_num [is_valid, inWorkspace, minDist2, dist2, leSqrt, sqrtLe]
  · intro h
    have := congrArg Prod.fst h
    norm_num at this
  · norm_num [find_safe_positions, sampleLoop, is_valid, inWorkspace,
      minDist2, dist2, leSqrt, sqrtLe, lenFound, drawsAlt]

/-- Once `found` holds a candidate, the next iteration breaks
(`len(found) = 3 >= 1`) and the candidate is returned unchanged. -/
theorem sampleLoop_stop (ws : Workspace) (md xd : ℚ) (objects : List Vec3)
    (draws : ℕ → Vec3) :
    ∀ fuel i c, sampleLoop ws md xd objects 1 draws fuel i (some c) =
      .ok (some c) := by
  intro fuel i c
  cases fuel with
  | zero => rfl
  | succ n => rfl

theorem sampleLoop_first (ws : Workspace) (md xd : ℚ) (objects : List Vec3)
    (draws : ℕ → Vec3) :
    ∀ fuel i k, k < fuel →
      (∀ j, j < k → is_valid ws md xd objects (draws (i + j)) = .ok false) →
      is_valid ws md xd objects (draws (i + k)) = .ok true →
      sampleLoop ws md xd objects 1 draws fuel i none =
        .ok (some (draws (i + k))) := by
  intro fuel
  induction fuel with
  | zero => intro i k hk; omega
  | succ n ih =>
    intro i k hk hf hv
    unfold sampleLoop
    rw [if_neg (by simp [lenFound])]
    cases k with
    | zero =>
      rw [Nat.add_zero] at hv
      rw [hv]
      rw [Nat.add_zero]
      exact sampleLoop_stop ws md xd objects draws n (i + 1) (draws i)
    | succ m =>
      have h0 : is_valid ws md xd objects (draws i) = .ok false := by
        have := hf 0 (by omega)
        rwa [Nat.add_zero] at this
      rw [h0]
      have he : i + 1 + m = i + (m + 1) := by omega
      have := ih (i + 1) m (by omega)
        (fun j hj => by
          have h1 := hf (j + 1) (by omega)
          have he2 : i + 1 + j = i + (j + 1) := by omega
          rwa [he2])
        (by rwa [he])
      rwa [he] at this

/-- C3 (amended): for `num_positions = 1`, the sampler returns the
FIRST valid candidate drawn: if the draws before index `k` are all
invalid and the draw at `k < max_attempts` is valid, the result is
`draws k` — later candidates are never consulted, because the loop
breaks once `len(found) = 3 ≥ 1`. -/
theorem find_safe_positions_first_valid (objects : List Vec3)
    (ws : Workspace) (md xd : ℚ) (ma : ℕ) (draws : ℕ → Vec3) (k : ℕ)
    (hk : k < ma)
    (hf : ∀ j, j < k → is_valid ws md xd objects (draws j) = .ok false)
    (hv : is_valid ws md xd objects (draws k) = .ok true) :
    find_safe_positions objects ws md xd 1 ma draws = .ok (some (draws k)) := by
  unfold find_safe_positions
  have := sampleLoop_first ws md xd objects draws ma 0 k hk
    (fun j hj => by simpa using hf j hj) (by simpa using hv)
  simpa using this

/-- A draw stream whose first candidate `(2,0,0)` lies outside the unit
workspace and whose later candidates are `(1/4, 0, 0)`. -/
def drawsOut : ℕ → Vec3 :=
  fun i => if i = 0 then ((2 : ℚ), (0 : ℚ), (0 : ℚ))
           else ((1/4 : ℚ), (0 : ℚ), (0 : ℚ))

/-- Witness for the amended C3: the first draw is out of bounds, the
second is valid and gets returned. -/
theorem find_safe_positions_first_valid_witness :
    (1 < 3) ∧
    (∀ j, j < 1 → is_valid ((0, 1), (0, 1), (0, 1)) (1/10) (1/2)
      [((0 : ℚ), (0 : ℚ), (0 : ℚ))] (drawsOut j) = .ok false) ∧
    is_valid ((0, 1), (0, 1), (0, 1)) (1/10) (1/2)
      [((0 : ℚ), (0 : ℚ), (0 : ℚ))] (drawsOut 1) = .ok true ∧
    find_safe_positions [((0 : ℚ), (0 : ℚ), (0 : ℚ))]
      ((0, 1), (0, 1), (0, 1)) (1/10) (1/2) 1 3 drawsOut =
      .ok (some (drawsOut 1)) := by
  have hf : ∀ j, j < 1 → is_valid ((0, 1), (0, 1), (0, 1)) (1/10) (1/2)
      [((0 : ℚ), (0 : ℚ), (0 : ℚ))] (drawsOut j) = .ok false := by
    intro j hj
    have hj0 : j = 0 := by omega
    subst hj0
    norm_num [drawsOut, is_valid, inWorkspace]
  have hv : is_valid ((0, 1), (0, 1), (0, 1)) (1/10) (1/2)
      [((0 : ℚ), (0 : ℚ), (0 : ℚ))] (drawsOut 1) = .ok true := by
    norm_num [drawsOut, is_valid, inWorkspace, minDist2, dist2, leSqrt, sqrtLe]
  exact ⟨by norm_num, hf, hv,
    find_safe_positions_first_valid [((0 : ℚ), (0 : ℚ), (0 : ℚ))]
      ((0, 1), (0, 1), (0, 1)) (1/10) (1/2) 3 drawsOut 1 (by norm_num) hf hv⟩

/-! ### `add_inertial.py`: `calculate_inertial_properties`

The estimator's mesh operations come from the external `trimesh` library
(not part of this repository), so a mesh is embedded as the record of the
observables the code reads: `is_watertight`, `volume`, `center_mass`,
`moment_inertia` and `bounds`.  The repair pipeline
(`fill_holes` + `process(validate=True)`, then `convex_hull`) is embedded
by supplying, alongside the loaded mesh, the mesh observed after repair
and the convex hull observed if repair fails; `selectMesh` mirrors the
`if not mesh.is_watertight: ...` cascade of lines 37–46.  The enclosing
`try/except` of lines 32–97 catches any exception raised by any step; an
input `.error e` models a run in which some step raised exception `e`. -/

/-- A symmetric 3×3 tensor as nine rational entries. -/
structure Mat3 where
  xx : ℚ
  xy : ℚ
  xz : ℚ
  yx : ℚ
  yy : ℚ
  yz : ℚ
  zx : ℚ
  zy : ℚ
  zz : ℚ
deriving DecidableEq

/-- The observables that `calculate_inertial_properties` reads from a
`trimesh` mesh object. -/
structure Mesh where
  is_watertight : Bool
  volume : ℚ
  center_mass : Vec3
  moment_inertia : Mat3
  bounds_lo : Vec3
  bounds_hi : Vec3

/-- One run of the estimator on a mesh file: the mesh as loaded, the mesh
after the `fill_holes`/`process` repair attempt, and the convex hull
substituted if the repaired mesh is still not watertight. -/
structure MeshInput where
  loaded : Mesh
  repaired : Mesh
  hull : Mesh

/-- Lines 37–46: keep the loaded mesh if watertight, else the repaired
mesh if that is watertight, else its convex hull. -/
def selectMesh (inp : MeshInput) : Mesh :=
  if inp.loaded.is_watertight then inp.loaded
  else if inp.repaired.is_watertight then inp.repaired
  else inp.hull

/-- The size `bounds[1] - bounds[0]` (lines 55–56 and 73–74). -/
def bboxSize (m : Mesh) : Vec3 :=
  (m.bounds_hi.1 - m.bounds_lo.1,
   m.bounds_hi.2.1 - m.bounds_lo.2.1,
   m.bounds_hi.2.2 - m.bounds_lo.2.2)

/-- The centre of the axis-aligned bounding box (used only to state what
the spec asserts about the centre of mass; the code never computes it). -/
def bboxCenter (m : Mesh) : Vec3 :=
  ((m.bounds_lo.1 + m.bounds_hi.1) / 2,
   (m.bounds_lo.2.1 + m.bounds_hi.2.1) / 2,
   (m.bounds_lo.2.2 + m.bounds_hi.2.2) / 2)

/-- The volume epsilon `1e-10` of line 52. -/
def volumeEps : ℚ := 1 / 10 ^ 10

/-- The `atol=1e-10` of the `np.allclose(inertia_tensor, 0, atol=1e-10)`
check on line 70; with second argument `0` the `rtol` term vanishes, so
the check is exactly `|entry| ≤ 1e-10` for all nine entries. -/
def inertiaAtol : ℚ := 1 / 10 ^ 10

/-- The bounding-box dimension epsilon `1e-6` of line 77. -/
def sizeEps : ℚ := 1 / 10 ^ 6

/-- Line 60: `density = 1000.0` — hard-coded, not a parameter. -/
def density : ℚ := 1000

/-- Lines 49–57: the mesh volume, replaced by the bounding-box volume
when below `1e-10`. -/
def effectiveVolume (inp : MeshInput) : ℚ :=
  let m := selectMesh inp
  if m.volume < volumeEps then
    let s := bboxSize m
    s.1 * s.2.1 * s.2.2
  else m.volume

/-- The check `np.allclose(inertia_tensor, 0, atol=1e-10)` (line 70). -/
def allcloseZero (M : Mat3) : Bool :=
  |M.xx| ≤ inertiaAtol && |M.xy| ≤ inertiaAtol && |M.xz| ≤ inertiaAtol &&
  |M.yx| ≤ inertiaAtol && |M.yy| ≤ inertiaAtol && |M.yz| ≤ inertiaAtol &&
  |M.zx| ≤ inertiaAtol && |M.zy| ≤ inertiaAtol && |M.zz| ≤ inertiaAtol

/-- The matrix `np.diag([q, q, q])`. -/
def diagMat (q : ℚ) : Mat3 :=
  ⟨q, 0, 0, 0, q, 0, 0, 0, q⟩

/-- Lines 84–90: the rectangular-prism inertia tensor
`Ixx = (m/12)(sy² + sz²)` and cyclically, off-diagonals zero. -/
def prismInertia (mass : ℚ) (s : Vec3) : Mat3 :=
  { xx := mass / 12 * (s.2.1 ^ 2 + s.2.2 ^ 2), xy := 0, xz := 0,
    yx := 0, yy := mass / 12 * (s.1 ^ 2 + s.2.2 ^ 2), yz := 0,
    zx := 0, zy := 0, zz := mass / 12 * (s.1 ^ 2 + s.2.1 ^ 2) }

/-- The test `any(dim < 1e-6 for dim in size)` (line 77). -/
def anyDimSmall (s : Vec3) : Bool :=
  s.1 < sizeEps || s.2.1 < sizeEps || s.2.2 < sizeEps

/-- Lines 70–90: the tensor substituted when the computed tensor is
near-zero as a whole: the fixed default `diag(0.1)` for a degenerate
bounding box, otherwise the rectangular-prism approximation. -/
def fallbackTensor (mass : ℚ) (m : Mesh) : Mat3 :=
  if anyDimSmall (bboxSize m) then diagMat (1/10)
  else prismInertia mass (bboxSize m)

/-- Model of `calculate_inertial_properties` (`add_inertial.py` lines 27–97),
returning `(mass, centroid, inertia_tensor)`.  An `.error` input models a
run in which some step raised; the `except` branch of lines 93–97 then
returns the fixed default `(1.0, [0,0,0], np.diag([0.1,0.1,0.1]))`. -/
def calculate_inertial_properties : Except String MeshInput → ℚ × Vec3 × Mat3
  | .error _ => (1, (0, 0, 0), diagMat (1/10))
  | .ok inp =>
    let mesh := selectMesh inp
    let mass := density * effectiveVolume inp
    let centroid := mesh.center_mass
    let inertia :=
      if allcloseZero mesh.moment_inertia then fallbackTensor mass mesh
      else mesh.moment_inertia
    (mass, centroid, inertia)

/-! ### C2: no per-entry floor, mass can vanish -/

/-- A watertight mesh whose tensor has one tiny diagonal entry but a
large other entry: `np.allclose(·, 0)` is false, so the tensor passes
through unchanged. -/
def meshTinyEntry : Mesh :=
  { is_watertight := true, volume := 1/1000, center_mass := (0, 0, 0),
    moment_inertia :=
      { xx := 1 / 10 ^ 20, xy := 0, xz := 0,
        yx := 0, yy := 5, yz := 0, zx := 0, zy := 0, zz := 5 },
    bounds_lo := (0, 0, 0), bounds_hi := (1, 1, 1) }

/-- A watertight but flat mesh: near-zero volume and a bounding box of
height zero, so the bounding-box volume is zero too. -/
def meshFlat : Mesh :=
  { is_watertight := true, volume := 0, center_mass := (0, 0, 0),
    moment_inertia := diagMat 0,
    bounds_lo := (0, 0, 0), bounds_hi := (1, 1, 0) }

/-- Counterexample to C2: a tensor whose `xx` entry is `1e-20 < 1e-10`
is returned unchanged (the code only replaces tensors that are near-zero
as a whole), and a flat mesh yields mass `0`, not `> 0`. -/
theorem calculate_inertial_floor_cex :
    (calculate_inertial_properties
      (.ok ⟨meshTinyEntry, meshTinyEntry, meshTinyEntry⟩)).2.2.xx =
        1 / 10 ^ 20 ∧
    ((1 / 10 ^ 20 : ℚ) < 1 / 10 ^ 10) ∧
    (calculate_inertial_properties (.ok ⟨meshFlat, meshFlat, meshFlat⟩)).1 = 0 := by
  refine ⟨?_, by norm_num, ?_⟩
  · norm_num [calculate_inertial_properties, selectMesh, meshTinyEntry,
      allcloseZero, inertiaAtol, effectiveVolume, volumeEps, density]
  · norm_num [calculate_inertial_properties, selectMesh, meshFlat,
      effectiveVolume, volumeEps, bboxSize, density]

/-- C2 (amended): the guarantees hold only on the default-fallback
path: if the effective (possibly bounding-box-substituted) volume is
positive, the mass `1000 × volume` is positive; and if the computed
tensor is near-zero as a whole and the bounding box is degenerate, the
returned tensor is `diag(0.1)`, whose diagonal entries meet the `1e-10`
floor.  Outside these provisos the code enforces neither property. -/
theorem calculate_inertial_guarded (inp : MeshInput)
    (h1 : 0 < effectiveVolume inp)
    (h2 : allcloseZero (selectMesh inp).moment_inertia = true)
    (h3 : anyDimSmall (bboxSize (selectMesh inp)) = true) :
    0 < (calculate_inertial_properties (.ok inp)).1 ∧
    (calculate_inertial_properties (.ok inp)).2.2 = diagMat (1/10) ∧
    inertiaAtol ≤ (calculate_inertial_properties (.ok inp)).2.2.xx ∧
    inertiaAtol ≤ (calculate_inertial_properties (.ok inp)).2.2.yy ∧
    inertiaAtol ≤ (calculate_inertial_properties (.ok inp)).2.2.zz := by
  have hmass : (calculate_inertial_properties (.ok inp)).1 =
      density * effectiveVolume inp := rfl
  have htens : (calculate_inertial_properties (.ok inp)).2.2 = diagMat (1/10) := by
    show (if allcloseZero (selectMesh inp).moment_inertia then
        fallbackTensor (density * effectiveVolume inp) (selectMesh inp)
      else (selectMesh inp).moment_inertia) = diagMat (1/10)
    rw [h2, if_pos rfl]
    unfold fallbackTensor
    rw [h3, if_pos rfl]
  refine ⟨?_, htens, ?_, ?_, ?_⟩
  · rw [hmass]; unfold density; positivity
  · rw [htens]; unfold inertiaAtol diagMat; norm_num
  · rw [htens]; unfold inertiaAtol diagMat; norm_num
  · rw [htens]; unfold inertiaAtol diagMat; norm_num

/-- A watertight mesh with healthy volume, an all-zero tensor and a
degenerate (pointlike) bounding box: exercises every hypothesis of the
amended C2. -/
def meshPoint : Mesh :=
  { is_watertight := true, volume := 1/1000, center_mass := (0, 0, 0),
    moment_inertia := diagMat 0,
    bounds_lo := (0, 0, 0), bounds_hi := (0, 0, 0) }

/-- Witness for the amended C2. -/
theorem calculate_inertial_guarded_witness :
    (0 < effectiveVolume ⟨meshPoint, meshPoint, meshPoint⟩) ∧
    (allcloseZero (selectMesh ⟨meshPoint, meshPoint, meshPoint⟩).moment_inertia
      = true) ∧
    (anyDimSmall (bboxSize (selectMesh ⟨meshPoint, meshPoint, meshPoint⟩))
      = true) ∧
    0 < (calculate_inertial_properties
      (.ok ⟨meshPoint, meshPoint, meshPoint⟩)).1 ∧
    (calculate_inertial_properties
      (.ok ⟨meshPoint, meshPoint, meshPoint⟩)).2.2 = diagMat (1/10) := by
  have h1 : 0 < effectiveVolume ⟨meshPoint, meshPoint, meshPoint⟩ := by
    norm_num [effectiveVolume, selectMesh, meshPoint, volumeEps]
  have h2 : allcloseZero (selectMesh
      ⟨meshPoint, meshPoint, meshPoint⟩).moment_inertia = true := by
    norm_num [allcloseZero, selectMesh, meshPoint, diagMat, inertiaAtol]
  have h3 : anyDimSmall (bboxSize (selectMesh
      ⟨meshPoint, meshPoint, meshPoint⟩)) = true := by
    norm_num [anyDimSmall, bboxSize, selectMesh, meshPoint, sizeEps]
  have h := calculate_inertial_guarded ⟨meshPoint, meshPoint, meshPoint⟩ h1 h2 h3
  exact ⟨h1, h2, h3, h.1, h.2.1⟩

/-! ### C4: the degenerate-cube example -/

/-- The spec's example mesh: fully degenerate (zero volume, zero
tensor), bounding box `0.1 × 0.1 × 0.1` m. -/
def meshDegCube : Mesh :=
  { is_watertight := true, volume := 0, center_mass := (0, 0, 0),
    moment_inertia := diagMat 0,
    bounds_lo := (0, 0, 0), bounds_hi := (1/10, 1/10, 1/10) }

/-- Counterexample to C4: the code hard-codes `density = 1000.0`
(line 60) — there is no density parameter — so the degenerate
`0.1 × 0.1 × 0.1` mesh yields mass exactly `1.0` kg (not ≈ 0.8) and
diagonal inertia exactly `1/600 ≈ 0.001667` (not ≈ 0.00133). -/
theorem calculate_inertial_density_cex :
    (calculate_inertial_properties
      (.ok ⟨meshDegCube, meshDegCube, meshDegCube⟩)).1 = 1 ∧
    ((1 : ℚ) ≠ 4/5) ∧
    (calculate_inertial_properties
      (.ok ⟨meshDegCube, meshDegCube, meshDegCube⟩)).2.2.xx = 1/600 ∧
    ((1/600 : ℚ) ≠ 133/100000) := by
  refine ⟨?_, by norm_num, ?_, by norm_num⟩
  · norm_num [calculate_inertial_properties, selectMesh, meshDegCube,
      effectiveVolume, volumeEps, bboxSize, density]
  · norm_num [calculate_inertial_properties, selectMesh, meshDegCube,
      effectiveVolume, volumeEps, bboxSize, density, allcloseZero,
      inertiaAtol, diagMat, fallbackTensor, anyDimSmall, sizeEps,
      prismInertia]

/-- C4 (amended): with the hard-coded density `1000 kg/m³`, every
mesh input whose selected mesh has near-zero volume, a near-zero tensor
and a `0.1 × 0.1 × 0.1` bounding box yields mass exactly `1` kg, the
mesh centroid, and the rectangular-prism tensor `diag(1/600)`
(`1/600 ≈ 0.001667`), off-diagonals zero. -/
theorem calculate_inertial_degenerate_prism (inp : MeshInput)
    (hv : (selectMesh inp).volume < volumeEps)
    (hz : allcloseZero (selectMesh inp).moment_inertia = true)
    (hs : bboxSize (selectMesh inp) = (1/10, 1/10, 1/10)) :
    calculate_inertial_properties (.ok inp) =
      (1, (selectMesh inp).center_mass, diagMat (1/600)) := by
  have hvol : effectiveVolume inp = 1/1000 := by
    unfold effectiveVolume
    rw [if_pos hv, hs]
    norm_num
  show (density * effectiveVolume inp, (selectMesh inp).center_mass,
      if allcloseZero (selectMesh inp).moment_inertia then
        fallbackTensor (density * effectiveVolume inp) (selectMesh inp)
      else (selectMesh inp).moment_inertia) = _
  rw [hz, if_pos rfl, hvol]
  unfold fallbackTensor
  rw [hs]
  have hdim : anyDimSmall ((1/10 : ℚ), (1/10 : ℚ), (1/10 : ℚ)) = false := by
    norm_num [anyDimSmall, sizeEps]
  rw [hdim]
  simp only [Bool.false_eq_true, if_false]
  unfold density prismInertia diagMat
  norm_num

/-- Witness for the amended C4 at the concrete degenerate cube. -/
theorem calculate_inertial_degenerate_prism_witness :
    ((selectMesh ⟨meshDegCube, meshDegCube, meshDegCube⟩).volume < volumeEps) ∧
    (allcloseZero (selectMesh
      ⟨meshDegCube, meshDegCube, meshDegCube⟩).moment_inertia = true) ∧
    (bboxSize (selectMesh ⟨meshDegCube, meshDegCube, meshDegCube⟩) =
      (1/10, 1/10, 1/10)) ∧
    calculate_inertial_properties (.ok ⟨meshDegCube, meshDegCube, meshDegCube⟩) =
      (1, (selectMesh ⟨meshDegCube, meshDegCube, meshDegCube⟩).center_mass,
        diagMat (1/600)) := by
  have hv : (selectMesh ⟨meshDegCube, meshDegCube, meshDegCube⟩).volume <
      volumeEps := by norm_num [selectMesh, meshDegCube, volumeEps]
  have hz : allcloseZero (selectMesh
      ⟨meshDegCube, meshDegCube, meshDegCube⟩).moment_inertia = true := by
    norm_num [allcloseZero, selectMesh, meshDegCube, diagMat, inertiaAtol]
  have hs : bboxSize (selectMesh ⟨meshDegCube, meshDegCube, meshDegCube⟩) =
      ((1/10 : ℚ), (1/10 : ℚ), (1/10 : ℚ)) := by
    norm_num [bboxSize, selectMesh, meshDegCube]
  exact ⟨hv, hz, hs,
    calculate_inertial_degenerate_prism ⟨meshDegCube, meshDegCube, meshDegCube⟩
      hv hz hs⟩

/-! ### C7: centroid is never the bounding-box centre -/

/-- A degenerate mesh whose `trimesh` centroid is far from its
bounding-box centre. -/
def meshOffCenter : Mesh :=
  { is_watertight := true, volume := 0, center_mass := (7, 8, 9),
    moment_inertia := diagMat 0,
    bounds_lo := (0, 0, 0), bounds_hi := (1/10, 1/10, 1/10) }

/-- Counterexample to C7: the volume IS replaced by the bounding-box
volume (it is below `1e-10`), yet the returned centre of mass is the
mesh-derived `center_mass` `(7,8,9)`, not the bounding-box centre
`(0.05, 0.05, 0.05)` — line 64 reads `mesh.center_mass` unconditionally. -/
theorem calculate_inertial_centroid_cex :
    ((selectMesh ⟨meshOffCenter, meshOffCenter, meshOffCenter⟩).volume <
      volumeEps) ∧
    (calculate_inertial_properties
      (.ok ⟨meshOffCenter, meshOffCenter, meshOffCenter⟩)).2.1 =
      ((7 : ℚ), (8 : ℚ), (9 : ℚ)) ∧
    bboxCenter (selectMesh ⟨meshOffCenter, meshOffCenter, meshOffCenter⟩) =
      ((1/20 : ℚ), (1/20 : ℚ), (1/20 : ℚ)) ∧
    (((7 : ℚ), (8 : ℚ), (9 : ℚ)) : Vec3) ≠
      ((1/20 : ℚ), (1/20 : ℚ), (1/20 : ℚ)) := by
  refine ⟨?_, rfl, ?_, ?_⟩
  · norm_num [selectMesh, meshOffCenter, volumeEps]
  · norm_num [bboxCenter, selectMesh, meshOffCenter]
  · intro h
    have := congrArg Prod.fst h
    norm_num at this

/-- C7 (amended): even when the mesh volume is below the epsilon and
is replaced by the bounding-box volume, the returned centre of mass is
always the mesh-derived `center_mass` of the (possibly hull-substituted)
mesh — never the bounding-box centre. -/
theorem calculate_inertial_centroid_mesh (inp : MeshInput)
    (_hv : (selectMesh inp).volume < volumeEps) :
    (calculate_inertial_properties (.ok inp)).2.1 =
      (selectMesh inp).center_mass := rfl

/-- Witness for the amended C7. -/
theorem calculate_inertial_centroid_mesh_witness :
    ((selectMesh ⟨meshFlat, meshPoint, meshPoint⟩).volume < volumeEps) ∧
    (calculate_inertial_properties (.ok ⟨meshFlat, meshPoint, meshPoint⟩)).2.1 =
      (selectMesh ⟨meshFlat, meshPoint, meshPoint⟩).center_mass := by
  have hv : (selectMesh ⟨meshFlat, meshPoint, meshPoint⟩).volume < volumeEps := by
    norm_num [selectMesh, meshFlat, volumeEps]
  exact ⟨hv, calculate_inertial_centroid_mesh ⟨meshFlat, meshPoint, meshPoint⟩ hv⟩

/-! ### C8: the exception path returns the fixed default -/

/-- C8: whatever exception any step raises, the `except` branch
returns the fixed safe default — mass `1.0`, zero centroid, uniform
diagonal tensor `diag(0.1)` — and the function never propagates the
exception (its result type is the plain triple). -/
theorem calculate_inertial_exception_default (e : String) :
    calculate_inertial_properties (.error e) = (1, (0, 0, 0), diagMat (1/10)) :=
  rfl

/-! ### An XML document model for the URDF patchers

`add_inertial_to_urdf` mixes `xml.etree.ElementTree` queries (to detect
an existing `inertial` element) with raw text surgery (to insert the new
block after the first `</collision>` in the file), and
`update_urdf_mesh_paths_recursive` rewrites `filename` attributes of all
`mesh` descendants.  Both are embedded over a tree of elements with tag,
attribute list and children.  The textual insertion after the first
`</collision>` is modelled structurally as insertion of a new sibling
right after the first `collision` element in document order, which is
exact for documents in which no `collision` element is nested inside
another (URDF collisions are leaves of `link` elements).  The purely
textual declaration fix-ups (`fix_xml_format`, `clean_xml_content`) move
or strip bytes before the root element only, so they are the identity on
the tree model. -/

mutual

inductive XmlNode where
  | elem (tag : String) (attrs : List (String × String)) (children : XmlForest)

inductive XmlForest where
  | nil
  | cons (head : XmlNode) (tail : XmlForest)

end

/-- The tag of an element. -/
def XmlNode.tag : XmlNode → String
  | .elem t _ _ => t

/-- The `find(t)` of `ElementTree`: the first direct child with tag `t`. -/
def findChildF (t : String) : XmlForest → Option XmlNode
  | .nil => none
  | .cons c cs => if c.tag == t then some c else findChildF t cs

/-- `element.find(t)` on an element. -/
def findChild (t : String) : XmlNode → Option XmlNode
  | .elem _ _ cs => findChildF t cs

mutual

/-- Whether the subtree rooted at a node contains a `collision` element
(the text contains `</collision>`). -/
def containsCollisionN : XmlNode → Bool
  | .elem t _ cs => t == "collision" || containsCollisionF cs

def containsCollisionF : XmlForest → Bool
  | .nil => false
  | .cons c cs => containsCollisionN c || containsCollisionF cs

end

mutual

/-- Insertion of `newN` as the next sibling of the first `collision`
element in document order inside a node (the textual insertion after the
first `</collision>`); the boolean reports whether an insertion
happened. -/
def insertAfterCollisionN (newN : XmlNode) : XmlNode → XmlNode × Bool
  | .elem t a cs =>
    let r := insertAfterCollisionF newN cs
    (.elem t a r.1, r.2)

def insertAfterCollisionF (newN : XmlNode) : XmlForest → XmlForest × Bool
  | .nil => (.nil, false)
  | .cons c cs =>
    if c.tag == "collision" then (.cons c (.cons newN cs), true)
    else
      let rc := insertAfterCollisionN newN c
      if rc.2 then (.cons rc.1 cs, true)
      else
        let rcs := insertAfterCollisionF newN cs
        (.cons c rcs.1, rcs.2)

end

mutual

/-- The number of elements with tag `t` in a subtree. -/
def countTagN (t : String) : XmlNode → ℕ
  | .elem tg _ cs => (if tg == t then 1 else 0) + countTagF t cs

def countTagF (t : String) : XmlForest → ℕ
  | .nil => 0
  | .cons c cs => countTagN t c + countTagF t cs

end

/-- Decimal-free rendering of a rational into attribute text (the code
formats with `:.6f`; the exact digits are irrelevant to the claims). -/
def fmtQ (q : ℚ) : String :=
  toString q.num ++ "/" ++ toString q.den

/-- The formatted `<inertial>` block of `add_inertial.py` lines 130–136:
a `mass`, an `origin` and an `inertia` child. -/
def inertialElem (mass : ℚ) (c : Vec3) (inert : Mat3) : XmlNode :=
  .elem "inertial" []
    (.cons (.elem "mass" [("value", fmtQ mass)] .nil)
      (.cons (.elem "origin"
          [("xyz", fmtQ c.1 ++ " " ++ fmtQ c.2.1 ++ " " ++ fmtQ c.2.2)] .nil)
        (.cons (.elem "inertia"
            [("ixx", fmtQ inert.xx), ("ixy", fmtQ inert.xy),
             ("ixz", fmtQ inert.xz), ("iyy", fmtQ inert.yy),
             ("iyz", fmtQ inert.yz), ("izz", fmtQ inert.zz)] .nil)
          .nil)))

/-- Model of `add_inertial_to_urdf` (`add_inertial.py` lines 99–176) on
one parsed document: find the first `link` child of the root (line 116);
return unchanged if it already has an `inertial` child (line 122) or if
the text has no `</collision>` (line 140); otherwise insert the computed
inertial block right after the first `</collision>` (lines 144–161).
Parse failures and missing files leave the file unchanged and are not
modelled. -/
def add_inertial_to_urdf (props : ℚ × Vec3 × Mat3) (doc : XmlNode) : XmlNode :=
  match findChild "link" doc with
  | none => doc
  | some link =>
    if (findChild "inertial" link).isSome then doc
    else if containsCollisionN doc then
      (insertAfterCollisionN (inertialElem props.1 props.2.1 props.2.2) doc).1
    else doc

/-- A document whose FIRST `link` has no collision, while a later `link`
holds the document's first `collision` element. -/
def docTwoLinks : XmlNode :=
  .elem "robot" []
    (.cons (.elem "link" [("name", "base")] .nil)
      (.cons (.elem "link" [("name", "second")]
          (.cons (.elem "collision" [] .nil) .nil))
        .nil))

/-- Counterexample to C5: on a document whose first `link` lacks a
collision, the first run inserts the block inside a LATER link, the
second run does not detect it (it checks only the first `link`), inserts
a second block, and the output of the second run differs from the output
of the first. -/
theorem add_inertial_not_idempotent_cex :
    countTagN "inertial"
      (add_inertial_to_urdf (1, (0, 0, 0), diagMat (1/10)) docTwoLinks) = 1 ∧
    countTagN "inertial"
      (add_inertial_to_urdf (1, (0, 0, 0), diagMat (1/10))
        (add_inertial_to_urdf (1, (0, 0, 0), diagMat (1/10)) docTwoLinks)) = 2 ∧
    add_inertial_to_urdf (1, (0, 0, 0), diagMat (1/10))
        (add_inertial_to_urdf (1, (0, 0, 0), diagMat (1/10)) docTwoLinks) ≠
      add_inertial_to_urdf (1, (0, 0, 0), diagMat (1/10)) docTwoLinks := by
  have h1 : countTagN "inertial"
      (add_inertial_to_urdf (1, (0, 0, 0), diagMat (1/10)) docTwoLinks) = 1 := by
    simp [add_inertial_to_urdf, docTwoLinks, findChild, findChildF,
      containsCollisionN, containsCollisionF, insertAfterCollisionN,
      insertAfterCollisionF, XmlNode.tag, countTagN, countTagF, inertialElem]
  have h2 : countTagN "inertial"
      (add_inertial_to_urdf (1, (0, 0, 0), diagMat (1/10))
        (add_inertial_to_urdf (1, (0, 0, 0), diagMat (1/10)) docTwoLinks)) = 2 := by
    simp [add_inertial_to_urdf, docTwoLinks, findChild, findChildF,
      containsCollisionN, containsCollisionF, insertAfterCollisionN,
      insertAfterCollisionF, XmlNode.tag, countTagN, countTagF, inertialElem]
  refine ⟨h1, h2, ?_⟩
  intro h
  rw [h, h1] at h2
  exact absurd h2 (by norm_num)

/-- Whether the second run would detect the inertial block: the first
`link` of the once-patched document has an `inertial` child. -/
def secondRunDetects (props : ℚ × Vec3 × Mat3) (d : XmlNode) : Bool :=
  match findChild "link" (add_inertial_to_urdf props d) with
  | none => false
  | some l => (findChild "inertial" l).isSome

/-- C5 (amended): running the patcher twice equals running it once
PROVIDED the block inserted by the first run became a child of the first
`link` element (equivalently, the first run was a no-op) — which holds
for well-formed single-link URDF files, where the first `</collision>`
lies inside the first `link`.  Without that proviso a second block is
inserted (see the counterexample). -/
theorem add_inertial_to_urdf_idempotent (props : ℚ × Vec3 × Mat3)
    (d : XmlNode)
    (h : add_inertial_to_urdf props d = d ∨ secondRunDetects props d = true) :
    add_inertial_to_urdf props (add_inertial_to_urdf props d) =
      add_inertial_to_urdf props d := by
  rcases h with h | h
  · rw [h]; exact h
  · unfold secondRunDetects at h
    generalize hd1 : add_inertial_to_urdf props d = d1 at h ⊢
    cases hfl : findChild "link" d1 with
    | none => rw [hfl] at h; cases h
    | some l =>
      rw [hfl] at h
      have h' : (findChild "inertial" l).isSome = true := h
      unfold add_inertial_to_urdf
      rw [hfl]
      simp [h']

/-- A well-formed one-link document: the collision sits inside the first
(only) `link`. -/
def docOneLink : XmlNode :=
  .elem "robot" []
    (.cons (.elem "link" [("name", "base")]
        (.cons (.elem "collision" [] .nil) .nil))
      .nil)

/-- Witness for the amended C5 on a well-formed one-link document. -/
theorem add_inertial_to_urdf_idempotent_witness :
    secondRunDetects (1, (0, 0, 0), diagMat (1/10)) docOneLink = true ∧
    add_inertial_to_urdf (1, (0, 0, 0), diagMat (1/10))
        (add_inertial_to_urdf (1, (0, 0, 0), diagMat (1/10)) docOneLink) =
      add_inertial_to_urdf (1, (0, 0, 0), diagMat (1/10)) docOneLink := by
  have hdet : secondRunDetects (1, (0, 0, 0), diagMat (1/10)) docOneLink = true := by
    simp [secondRunDetects, add_inertial_to_urdf, docOneLink, findChild,
      findChildF, containsCollisionN, containsCollisionF,
      insertAfterCollisionN, insertAfterCollisionF, XmlNode.tag, inertialElem]
  exact ⟨hdet, add_inertial_to_urdf_idempotent (1, (0, 0, 0), diagMat (1/10))
    docOneLink (Or.inr hdet)⟩

/-! ### `add_path.py`: `update_urdf_mesh_paths_recursive`

The per-file body of `update_urdf_mesh_paths_recursive` (lines 49–108):
compute the directory's path relative to the ROS-workspace `src` root
(skipping files whose directory is not strictly below that root,
lines 52–54), then rewrite the `filename` attribute of every `mesh`
descendant that names an `.stl` file (lines 86–99).  Filesystem paths
are embedded as lists of components; `str.endswith` and
`os.path.basename` are embedded by the equivalent computations
`pyEndsWith` and `basename` on the character data. -/

/-- Model of Python `s.endswith(suf)`. -/
def pyEndsWith (s suf : String) : Bool :=
  suf.data.isSuffixOf s.data

/-- Model of `os.path.basename`: the part after the last `/`. -/
def basenameAux (cur : List Char) : List Char → List Char
  | [] => cur.reverse
  | c :: rest => if c == '/' then basenameAux [] rest
                 else basenameAux (c :: cur) rest

/-- Model of `os.path.basename` on a POSIX path string. -/
def basename (s : String) : String :=
  ⟨basenameAux [] s.data⟩

/-- Line 94: `new_path = f"package://{package_relative_path}/{stl_filename}"`
with `stl_filename = os.path.basename(current_filename)` (line 92). -/
def rewriteFilename (prp f : String) : String :=
  "package://" ++ prp ++ "/" ++ basename f

/-- Lines 90–96: rewrite an attribute value only when it is truthy
(non-empty) and ends in `.stl`. -/
def rewriteIfStl (prp f : String) : String :=
  if (!(f == "")) && pyEndsWith f ".stl" then rewriteFilename prp f else f

/-- `mesh.get('filename')`: the value of the (unique) `filename`
attribute, if present. -/
def filenameAttr : List (String × String) → Option String
  | [] => none
  | (k, v) :: rest => if k == "filename" then some v else filenameAttr rest

/-- `mesh.set('filename', ...)` under the lines 90–96 guard: update the
`filename` attribute value in place. -/
def updateFilenameAttr (prp : String) : List (String × String) →
    List (String × String)
  | [] => []
  | (k, v) :: rest =>
    if k == "filename" then (k, rewriteIfStl prp v) :: rest
    else (k, v) :: updateFilenameAttr prp rest

mutual

/-- The rewrite applied to every element of the subtree whose tag is
`mesh` (the `root.findall('.//mesh')` loop of lines 86–99). -/
def updateMeshN (prp : String) : XmlNode → XmlNode
  | .elem t a cs =>
    .elem t (if t == "mesh" then updateFilenameAttr prp a else a)
      (updateMeshF prp cs)

def updateMeshF (prp : String) : XmlForest → XmlForest
  | .nil => .nil
  | .cons c cs => .cons (updateMeshN prp c) (updateMeshF prp cs)

end

/-- Lines 52–59: the package-relative path — defined only when the ROS
`src` root is a strict ancestor of the file's directory
(`ros_src_path in urdf_dir_path.parents`), in which case it is the
relative path joined with `/`. -/
def packageRelPath (rosSrc dir : List String) : Option String :=
  if rosSrc <+: dir ∧ rosSrc ≠ dir then
    some (String.intercalate "/" (dir.drop rosSrc.length))
  else none

/-- Model of the per-file body of `update_urdf_mesh_paths_recursive`
(`add_path.py` lines 49–108) on one parsed document: skip the file when
its directory is not strictly below the ROS `src` root, else rewrite the
`filename` attribute of every `mesh` descendant of the root. -/
def update_urdf_mesh_paths (rosSrc dir : List String) (doc : XmlNode) :
    XmlNode :=
  match packageRelPath rosSrc dir with
  | none => doc
  | some prp =>
    match doc with
    | .elem t a cs => .elem t a (updateMeshF prp cs)

mutual

/-- The `filename` attribute values of all `mesh` elements of a subtree,
in document order (`none` records a `mesh` without the attribute). -/
def meshFilenamesN : XmlNode → List (Option String)
  | .elem t a cs =>
    (if t == "mesh" then [filenameAttr a] else []) ++ meshFilenamesF cs

def meshFilenamesF : XmlForest → List (Option String)
  | .nil => []
  | .cons c cs => meshFilenamesN c ++ meshFilenamesF cs

end

/-- The `filename` attribute values of all `mesh` elements strictly below
the root (`root.findall('.//mesh')` excludes the root itself). -/
def docMeshFilenames : XmlNode → List (Option String)
  | .elem _ _ cs => meshFilenamesF cs

theorem filenameAttr_update (prp : String) (a : List (String × String)) :
    filenameAttr (updateFilenameAttr prp a) =
      Option.map (rewriteIfStl prp) (filenameAttr a) := by
  induction a with
  | nil => rfl
  | cons kv rest ih =>
    obtain ⟨k, v⟩ := kv
    by_cases hk : (k == "filename") = true
    · simp [updateFilenameAttr, filenameAttr, hk]
    · simp only [updateFilenameAttr, filenameAttr, hk, Bool.false_eq_true,
        if_false]
      exact ih

mutual

theorem meshFilenamesN_update (prp : String) (n : XmlNode) :
    meshFilenamesN (updateMeshN prp n) =
      (meshFilenamesN n).map (Option.map (rewriteIfStl prp)) := by
  cases n with
  | elem t a cs =>
    by_cases ht : (t == "mesh") = true
    · simp [updateMeshN, meshFilenamesN, ht, filenameAttr_update,
        meshFilenamesF_update prp cs]
    · simp [updateMeshN, meshFilenamesN, ht, meshFilenamesF_update prp cs]

theorem meshFilenamesF_update (prp : String) (f : XmlForest) :
    meshFilenamesF (updateMeshF prp f) =
      (meshFilenamesF f).map (Option.map (rewriteIfStl prp)) := by
  cases f with
  | nil => rfl
  | cons c cs =>
    simp [updateMeshF, meshFilenamesF, meshFilenamesN_update prp c,
      meshFilenamesF_update prp cs]

end

/-- C6: for a description file in directory `<root>/bar/` under the
declared source root, the rewriter maps every `mesh` element's
`filename` attribute through `rewriteIfStl "bar"`, and on a non-empty
value ending in `.stl` that rewrite produces exactly
`package://bar/<basename of the original reference>` — the prefix after
`package://` is the directory path relative to the source root, the last
component the basename of the original value. -/
theorem update_urdf_mesh_paths_rewrites (rosSrc : List String) (b : String)
    (doc : XmlNode) :
    docMeshFilenames (update_urdf_mesh_paths rosSrc (rosSrc ++ [b]) doc) =
      (docMeshFilenames doc).map (Option.map (rewriteIfStl b)) ∧
    (∀ f : String, f ≠ "" → pyEndsWith f ".stl" = true →
      rewriteIfStl b f = "package://" ++ b ++ "/" ++ basename f) := by
  constructor
  · have hrel : packageRelPath rosSrc (rosSrc ++ [b]) = some b := by
      unfold packageRelPath
      rw [if_pos]
      · rw [List.drop_left]
        rfl
      · refine ⟨List.prefix_append rosSrc [b], ?_⟩
        intro h
        have := congrArg List.length h
        simp at this
    unfold update_urdf_mesh_paths
    rw [hrel]
    cases doc with
    | elem t a cs =>
      simp [docMeshFilenames, meshFilenamesF_update]
  · intro f hne hstl
    unfold rewriteIfStl
    rw [if_pos]
    · rfl
    · simp [hstl, hne]

/-- A one-mesh document: `robot / link / visual / geometry / mesh` with a
local `filename` reference. -/
def docWithMesh : XmlNode :=
  .elem "robot" []
    (.cons (.elem "link" []
        (.cons (.elem "visual" []
            (.cons (.elem "geometry" []
                (.cons (.elem "mesh"
                    [("filename", "some/local/path/foo.stl")] .nil)
                  .nil))
              .nil))
          .nil))
      .nil)

/-- Witness for C6: the concrete spec example — a file in `<root>/bar/`
referencing `some/local/path/foo.stl` ends up referencing exactly
`package://bar/foo.stl`. -/
theorem update_urdf_mesh_paths_rewrites_witness :
    ("some/local/path/foo.stl" ≠ "") ∧
    pyEndsWith "some/local/path/foo.stl" ".stl" = true ∧
    rewriteIfStl "bar" "some/local/path/foo.stl" = "package://bar/foo.stl" ∧
    docMeshFilenames
        (update_urdf_mesh_paths ["home", "src"] (["home", "src"] ++ ["bar"])
          docWithMesh) =
      (docMeshFilenames docWithMesh).map (Option.map (rewriteIfStl "bar")) := by
  have h := update_urdf_mesh_paths_rewrites ["home", "src"] "bar" docWithMesh
  have hne : ("some/local/path/foo.stl" : String) ≠ "" := by decide
  have hstl : pyEndsWith "some/local/path/foo.stl" ".stl" = true := by decide
  have hbase : basename "some/local/path/foo.stl" = "foo.stl" := by decide
  refine ⟨hne, hstl, ?_, h.1⟩
  rw [h.2 "some/local/path/foo.stl" hne hstl, hbase]
  decide

end DexHand
